import Mathlib

/-!
Verification development for the dcf-engine backend (src/Backend/main.py).

The Python service computes a discounted-cash-flow valuation from partially
missing provider data. We shallowly embed the three endpoints
(`search_ticker`, `get_free_cash_flow`, `get_valuation`) as pure Lean
functions over an explicit provider-record type.

Modelling conventions:
- Python floats are modelled as exact rationals (ℚ). Where the code can
  produce non-finite floats before a NaN check (the pandas growth-rate
  pipeline), we use an explicit IEEE-style carrier `PFloat` with
  fin / positive-infinity / negative-infinity / NaN values and faithful
  Python `min`/`max` comparison semantics.
- The `stock.info` dictionary comes from a JSON payload, so its numeric
  fields are modelled as either a number or null (`JVal`); `float(None)`
  raises, which the code turns into the 404 "Missing core pricing data".
- pandas DataFrame cells (balance sheet, income statement) are modelled by
  `Cell`: a number, NaN, or a non-numeric object on which `math.isnan`
  raises (`Cell.obj`); the single try/except around the secondary block
  (main.py lines 98-120) is embedded by explicit abort-keeping-state flow.
- Dates in the free-cash-flow series are modelled as natural numbers;
  `sort_index()` is `List.insertionSort` on the date component (stable,
  like pandas).
- Response rounding (`round(x, 2)`, percent strings) happens only at the
  JSON boundary in the code and is not modelled; all claims are about the
  unrounded values and the echoed ticker.
-/

/-- IEEE-style float carrier for the pandas growth-rate pipeline:
a finite value, +inf, -inf, or NaN. -/
inductive PFloat where
  | fin (q : ℚ)
  | pinf
  | ninf
  | nan
deriving DecidableEq

/-- IEEE addition on `PFloat` (as numpy performs it when summing a series):
finite values add, an infinity absorbs finite values, opposite infinities
give NaN, NaN propagates. -/
def pfAdd : PFloat → PFloat → PFloat
  | .fin a, .fin b => .fin (a + b)
  | .fin _, x => x
  | x, .fin _ => x
  | .pinf, .pinf => .pinf
  | .ninf, .ninf => .ninf
  | _, _ => .nan

/-- Sum of a series of `PFloat`s, folded from 0 as numpy does. -/
def pfSum (l : List PFloat) : PFloat := l.foldl pfAdd (.fin 0)

/-- Division of a float by a positive count (`series.sum() / len(series)`);
only applied with a nonzero length. -/
def pfDivNat (x : PFloat) (n : ℕ) : PFloat :=
  match x with
  | .fin q => .fin (q / n)
  | .pinf => .pinf
  | .ninf => .ninf
  | .nan => .nan

/-- Python float comparison `a < b` (False whenever either side is NaN). -/
def pyLt : PFloat → PFloat → Bool
  | .fin a, .fin b => a < b
  | .nan, _ => false
  | _, .nan => false
  | .ninf, .ninf => false
  | .pinf, .pinf => false
  | .ninf, _ => true
  | _, .pinf => true
  | .pinf, _ => false
  | _, .ninf => false

/-- CPython `min(a, b)`: the first argument unless the second compares
strictly below it. -/
def pyMin (a b : PFloat) : PFloat := if pyLt b a then b else a

/-- CPython `max(a, b)`: the first argument unless the second compares
strictly above it. -/
def pyMax (a b : PFloat) : PFloat := if pyLt a b then b else a

/-- The rational carried by a finite `PFloat` (0 for the non-finite values;
only used where the code has already excluded them). -/
def PFloat.toRatD : PFloat → ℚ
  | .fin q => q
  | _ => 0

/-- A numeric field of the JSON-derived `stock.info` dictionary: either a
number or null (`float(None)` raises a TypeError in the code). -/
inductive JVal where
  | num (q : ℚ)
  | null
deriving DecidableEq

/-- A pandas DataFrame cell of the balance sheet / income statement: a
number, NaN, or a non-numeric object (truthy, and `math.isnan` raises on
it). -/
inductive Cell where
  | num (q : ℚ)
  | nan
  | obj
deriving DecidableEq

/-- Python truthiness of a cell (`if val ...`): 0 is falsy; NaN and
non-numeric objects are truthy. -/
def Cell.truthy : Cell → Bool
  | .num q => q ≠ 0
  | .nan => true
  | .obj => true

/-- `math.isnan(val)`: raises (models the TypeError) on a non-numeric
object. -/
def Cell.isnan : Cell → Except Unit Bool
  | .num _ => .ok false
  | .nan => .ok true
  | .obj => .error ()

/-- `val > 0` on a cell: False for NaN, raises for a non-numeric object. -/
def Cell.gtZero : Cell → Except Unit Bool
  | .num q => .ok (decide (0 < q))
  | .nan => .ok false
  | .obj => .error ()

/-- `float(val)` on a cell already known numeric (callers guard with
truthiness and `isnan` first, as the code does). -/
def Cell.toFloatNum : Cell → ℚ
  | .num q => q
  | _ => 0

/-- `stock.fast_info`, used with `.get(key, default)` as a price/shares
fallback (main.py lines 88-89). -/
structure FastInfo where
  lastPrice : Option ℚ
  shares : Option ℚ

/-- The numeric fields of `stock.info` read by `get_valuation`
(main.py lines 86-89 and 122). A field is `none` when the key is absent. -/
structure InfoDict where
  currentPrice : Option JVal
  previousClose : Option JVal
  sharesOutstanding : Option JVal
  impliedSharesOutstanding : Option JVal
  beta : Option JVal

/-- The two balance-sheet rows read by the code (main.py lines 101-106);
`none` means the row label is not in `bs.index`. -/
structure BalanceSheet where
  cashAndEquivalents : Option Cell
  totalDebt : Option Cell

/-- The three income-statement rows read by the code (main.py
lines 110-118); `none` means the row label is not in the index. -/
structure IncomeStmt where
  interestExpense : Option Cell
  taxProvision : Option Cell
  pretaxIncome : Option Cell

/-- One provider record per request. `fcfRow` is the "Free Cash Flow" row
of `stock.cashflow` keyed by period date (`none` models a missing/empty
cashflow statement or absent row; a `none` cell is NaN). `balanceSheet`
and `incomeStmt` are `Except` because the property access itself can raise
inside the single try of main.py lines 98-120. `rfProxyYield` is the
provider's risk-free-rate proxy quote (percent); the valuation code never
reads it. -/
structure RawRecord where
  fcfRow : Option (List (ℕ × Option ℚ))
  info : InfoDict
  fastInfo : FastInfo
  balanceSheet : Except Unit (Option BalanceSheet)
  incomeStmt : Except Unit (Option IncomeStmt)
  rfProxyYield : Option ℚ

/-- `cf.loc["Free Cash Flow"].dropna()`: drop the NaN cells, keeping the
column order. -/
def filteredFcf (row : List (ℕ × Option ℚ)) : List (ℕ × ℚ) :=
  row.filterMap (fun p => (p.2).map (fun v => (p.1, v)))

/-- Ascending sort by period date (second component is the value); the
embedding of `.sort_index()`, using a stable insertion sort like pandas. -/
def dateLe (a b : ℕ × ℚ) : Prop := a.1 ≤ b.1

instance : DecidableRel dateLe := fun a b => inferInstanceAs (Decidable (a.1 ≤ b.1))

instance : IsTotal (ℕ × ℚ) dateLe := ⟨fun a b => Nat.le_total a.1 b.1⟩

instance : IsTrans (ℕ × ℚ) dateLe := ⟨fun _ _ _ h1 h2 => Nat.le_trans h1 h2⟩

/-- `fcf_series = cf.loc["Free Cash Flow"].dropna().sort_index()`
(main.py line 82, after `filteredFcf`). -/
def sortFcf (l : List (ℕ × ℚ)) : List (ℕ × ℚ) := List.insertionSort dateLe l

/-- `float(x)` on an info-dictionary value: raises on null. -/
def floatJ : JVal → Option ℚ
  | .num q => some q
  | .null => none

/-- The chained lookup
`info.get("currentPrice", info.get("previousClose", stock.fast_info.get("lastPrice", 100)))`
(main.py line 88). Note `dict.get` returns a stored null, so a present-but-null
field short-circuits the fallback chain. -/
def chainPrice (r : RawRecord) : JVal :=
  (r.info.currentPrice).getD ((r.info.previousClose).getD (.num ((r.fastInfo.lastPrice).getD 100)))

/-- The chained lookup for shares outstanding with fallback 1,000,000
(main.py line 89). -/
def chainShares (r : RawRecord) : JVal :=
  (r.info.sharesOutstanding).getD
    ((r.info.impliedSharesOutstanding).getD (.num ((r.fastInfo.shares).getD 1000000)))

/-- The try-block of main.py lines 87-91: both `float` conversions must
succeed, otherwise the endpoint raises the 404 "Missing core pricing
data". -/
def priceShares (r : RawRecord) : Option (ℚ × ℚ) := do
  let cp ← floatJ (chainPrice r)
  let sh ← floatJ (chainShares r)
  pure (cp, sh)

/-- The mutable locals of main.py lines 95-96 during the secondary-data
try block: total_cash, total_debt, cost_of_debt, tax_rate. -/
structure SecState where
  totalCash : ℚ
  totalDebt : ℚ
  costOfDebt : ℚ
  taxRate : ℚ
deriving DecidableEq

/-- Initial values `total_cash, total_debt = 0.0, 0.0` and
`cost_of_debt, tax_rate = 0.05, 0.21` (main.py lines 95-96). -/
def initSec : SecState := ⟨0, 0, 0.05, 0.21⟩

/-- `total_cash = float(val) if val and not math.isnan(val) else 0.0`
(main.py lines 102-106); the error is the TypeError `math.isnan` raises on
a non-numeric truthy cell. -/
def readBsCell (c : Cell) : Except Unit ℚ := do
  if c.truthy then
    let n ← c.isnan
    if !n then pure c.toFloatNum else pure 0
  else pure 0

/-- main.py lines 110-113: when the "Interest Expense" row exists and
total_debt > 0, set cost_of_debt = float(ie) / total_debt for a truthy
non-NaN cell; otherwise keep the current value. -/
def readCostOfDebt (ie? : Option Cell) (debt cod0 : ℚ) : Except Unit ℚ :=
  match ie? with
  | none => .ok cod0
  | some ie =>
    if 0 < debt then do
      if ie.truthy then
        let n ← ie.isnan
        if !n then pure (ie.toFloatNum / debt) else pure cod0
      else pure cod0
    else .ok cod0

/-- main.py lines 114-118: when both the "Tax Provision" and "Pretax
Income" rows exist, set tax_rate = float(tp) / float(pi) under the guard
`tp and pi and pi > 0 and not isnan(tp) and not isnan(pi)` (evaluated left
to right, short-circuiting); otherwise keep the current value. -/
def readTaxRate (tp? pj? : Option Cell) (tax0 : ℚ) : Except Unit ℚ :=
  match tp?, pj? with
  | some tp, some pj =>
    if tp.truthy then
      if pj.truthy then do
        let gt ← pj.gtZero
        if gt then do
          let n1 ← tp.isnan
          if !n1 then do
            let n2 ← pj.isnan
            if !n2 then pure (tp.toFloatNum / pj.toFloatNum) else pure tax0
          else pure tax0
        else pure tax0
      else .ok tax0
    else .ok tax0
  | _, _ => .ok tax0

/-- The income-statement half of the secondary try block (main.py
lines 108-118), entered with the state accumulated so far. A raise while
reading interest expense aborts the rest of the block (`except: pass`),
leaving the tax rate at whatever it already was. -/
def afterBs (r : RawRecord) (s : SecState) : SecState :=
  match r.incomeStmt with
  | .error _ => s
  | .ok none => s
  | .ok (some inc) =>
    match readCostOfDebt inc.interestExpense s.totalDebt s.costOfDebt with
    | .error _ => s
    | .ok cod =>
      let s1 : SecState := { s with costOfDebt := cod }
      match readTaxRate inc.taxProvision inc.pretaxIncome s1.taxRate with
      | .error _ => s1
      | .ok tax => { s1 with taxRate := tax }

/-- The whole secondary try block (main.py lines 98-120): balance sheet
first, then income statement, one shared `except Exception: pass`. A
raise anywhere returns the state accumulated up to that point. -/
def secondaryBlock (r : RawRecord) : SecState :=
  match r.balanceSheet with
  | .error _ => initSec
  | .ok none => afterBs r initSec
  | .ok (some bs) =>
    let cashRes : Except Unit ℚ :=
      match bs.cashAndEquivalents with
      | none => .ok initSec.totalCash
      | some c => readBsCell c
    match cashRes with
    | .error _ => initSec
    | .ok cash =>
      let s1 : SecState := { initSec with totalCash := cash }
      let debtRes : Except Unit ℚ :=
        match bs.totalDebt with
        | none => .ok s1.totalDebt
        | some c => readBsCell c
      match debtRes with
      | .error _ => s1
      | .ok debt => afterBs r { s1 with totalDebt := debt }

/-- `beta = info.get("beta", 1.0); if beta is None or math.isnan(beta):
beta = 1.0` (main.py lines 122-124). The info dictionary is JSON-derived,
so NaN cannot occur there and the isnan branch never fires in the model. -/
def betaOf (r : RawRecord) : ℚ :=
  match r.info.beta with
  | none => 1
  | some .null => 1
  | some (.num q) => q

/-- `risk_free_rate = 0.042` (main.py line 126): a hardcoded literal, no
proxy fetch. -/
def risk_free_rate : ℚ := 0.042

/-- `expected_market_return = 0.10` (main.py line 127). -/
def expected_market_return : ℚ := 0.10

/-- CAPM cost of equity (main.py line 128). -/
def costOfEquity (r : RawRecord) : ℚ :=
  risk_free_rate + betaOf r * (expected_market_return - risk_free_rate)

/-- `perpetual_growth = 0.025` (main.py line 147). -/
def perpetual_growth : ℚ := 0.025

/-- Pre-clamp WACC (main.py lines 130-134): capital weights from market
cap and total debt (weights 1.0/0.0 when total capital is not positive),
blended with cost of debt after tax. -/
def waccRaw (cp sh : ℚ) (r : RawRecord) : ℚ :=
  let market_cap := cp * sh
  let s := secondaryBlock r
  let total_capital := market_cap + s.totalDebt
  let weight_equity := if 0 < total_capital then market_cap / total_capital else 1
  let weight_debt := if 0 < total_capital then s.totalDebt / total_capital else 0
  weight_equity * costOfEquity r + weight_debt * s.costOfDebt * (1 - s.taxRate)

/-- `wacc = max(0.06, min(wacc, 0.15))` (main.py line 135); all values are
finite here so Python min/max agree with the rational ones. -/
def waccClamped (cp sh : ℚ) (r : RawRecord) : ℚ :=
  max 0.06 (min (waccRaw cp sh r) 0.15)

/-- The guard `if wacc <= perpetual_growth: wacc = perpetual_growth + 0.01`
(main.py lines 149-150); the wacc actually used for discounting. -/
def waccFinal (cp sh : ℚ) (r : RawRecord) : ℚ :=
  if waccClamped cp sh r ≤ perpetual_growth then perpetual_growth + 0.01
  else waccClamped cp sh r

/-- One entry of `fcf_series.pct_change()`: (b - a) / a, i.e. b / a - 1,
as numpy float division computes it — sign-of-numerator infinity on a zero
previous value, NaN for 0 / 0, finite otherwise. -/
def pctOne (a b : ℚ) : PFloat :=
  if a = 0 then (if b = 0 then .nan else if 0 < b then .pinf else .ninf)
  else .fin (b / a - 1)

/-- `fcf_series.pct_change()` over consecutive values (the leading NaN
that pandas puts at position 0 is dropped by the `dropna()` that always
follows, so it is not materialised here). -/
def pctChanges : List ℚ → List PFloat
  | a :: b :: rest => pctOne a b :: pctChanges (b :: rest)
  | _ => []

/-- `growth_rates = fcf_series.pct_change().dropna()` (main.py line 137):
drops NaN entries but keeps infinities, as pandas does. -/
def growth_rates (vals : List ℚ) : List PFloat :=
  (pctChanges vals).filter (fun x => x ≠ PFloat.nan)

/-- main.py lines 138-140: the mean of the changes, 0.05 when there are
none, and 0.05 again when the mean is NaN (`math.isnan`; infinities pass
this check). -/
def avg_growth (vals : List ℚ) : PFloat :=
  let gr := growth_rates vals
  let a := if gr.isEmpty then PFloat.fin 0.05 else pfDivNat (pfSum gr) gr.length
  if a = PFloat.nan then PFloat.fin 0.05 else a

/-- `g = max(0.02, min(avg_growth, 0.15))` (main.py line 142) with Python
comparison semantics; the result is always finite. -/
def gOf (vals : List ℚ) : ℚ :=
  (pyMax (PFloat.fin 0.02) (pyMin (avg_growth vals) (PFloat.fin 0.15))).toRatD

/-- `future_fcf = [last_fcf * ((1 + g) ** i) for i in range(1, 6)]`
(main.py line 145). -/
def future_fcf (last g : ℚ) : List ℚ :=
  (List.range 5).map (fun i => last * (1 + g) ^ (i + 1))

/-- `terminal_value = (future_fcf[-1] * (1 + perpetual_growth)) /
(wacc - perpetual_growth)` (main.py line 152). -/
def terminal_value (last g w : ℚ) : ℚ :=
  ((future_fcf last g).getLastD 0 * (1 + perpetual_growth)) / (w - perpetual_growth)

/-- `pv_fcf = sum([f / ((1 + wacc) ** i) for i, f in enumerate(future_fcf, 1)])`
(main.py line 154). -/
def pv_fcf (last g w : ℚ) : ℚ :=
  (((future_fcf last g).enum).map (fun p => p.2 / (1 + w) ^ (p.1 + 1))).sum

/-- `pv_tv = terminal_value / ((1 + wacc) ** 5)` (main.py line 155). -/
def pv_tv (last g w : ℚ) : ℚ :=
  terminal_value last g w / (1 + w) ^ 5

/-- The error cases `get_valuation` raises deliberately; everything the
model represents maps to HTTP 404 (main.py lines 80, 84, 91). -/
inductive VErr where
  | noFcfData
  | emptyFcf
  | missingPricing
deriving DecidableEq

/-- The HTTP status attached to each deliberate valuation error. -/
def VErr.status : VErr → ℕ
  | .noFcfData => 404
  | .emptyFcf => 404
  | .missingPricing => 404

/-- The numbers of a successful valuation before the response is built. -/
structure CoreOut where
  currentPrice : ℚ
  intrinsicValue : ℚ
  growthRate : ℚ
  wacc : ℚ
  betaUsed : ℚ
deriving DecidableEq

/-- The body of `get_valuation` (main.py lines 78-159) up to the response:
404 when the cashflow statement / "Free Cash Flow" row is missing, 404
when the filtered series is empty, 404 when the price/shares conversion
raises; otherwise the DCF pipeline on exact rationals. -/
def valuationCore (r : RawRecord) : Except VErr CoreOut :=
  match r.fcfRow with
  | none => .error .noFcfData
  | some row =>
    let fcf_series := sortFcf (filteredFcf row)
    if fcf_series = [] then .error .emptyFcf
    else
      match priceShares r with
      | none => .error .missingPricing
      | some (current_price, shares) =>
        let s := secondaryBlock r
        let wacc := waccFinal current_price shares r
        let g := gOf (fcf_series.map Prod.snd)
        let last_fcf := (fcf_series.map Prod.snd).getLastD 0
        let enterprise_value := pv_fcf last_fcf g wacc + pv_tv last_fcf g wacc
        let equity_value := enterprise_value + s.totalCash - s.totalDebt
        let intrinsic_value := if 0 < shares then equity_value / shares else 0
        .ok ⟨current_price, intrinsic_value, g, wacc, betaOf r⟩

/-- The valuation response (rounding at the JSON boundary omitted):
ticker echoed in upper case (main.py line 162), the computed numbers, and
the fixed perpetual growth assumption. -/
structure VResult where
  ticker : String
  currentPrice : ℚ
  intrinsicValue : ℚ
  growthRate : ℚ
  wacc : ℚ
  perpetualGrowth : ℚ
  betaUsed : ℚ
deriving DecidableEq

/-- `GET /valuation/{ticker}` (main.py lines 72-178). -/
def get_valuation (t : String) (r : RawRecord) : Except VErr VResult :=
  (valuationCore r).map (fun c =>
    ⟨t.toUpper, c.currentPrice, c.intrinsicValue, c.growthRate, c.wacc,
      perpetual_growth, c.betaUsed⟩)

/-- The `/fcf/{ticker}` response body (main.py line 64). -/
structure FcfOut where
  ticker : String
  free_cash_flow : List (ℕ × ℚ)
deriving DecidableEq

/-- `GET /fcf/{ticker}` (main.py lines 53-69): 404 when the cashflow
statement or its "Free Cash Flow" row is missing, otherwise the NaN-dropped
row with the ticker echoed in upper case. -/
def get_free_cash_flow (t : String) (r : RawRecord) : Except Unit FcfOut :=
  match r.fcfRow with
  | none => .error ()
  | some row => .ok ⟨t.toUpper, filteredFcf row⟩

/-- One entry of the provider search payload (main.py lines 42-48): the
symbol, short name and quote type keys may each be absent; `q["symbol"]`
raises a KeyError when absent. -/
structure Quote where
  symbol : Option String
  shortname : Option String
  quoteType : Option String
deriving DecidableEq

/-- The parsed search payload (`data.get("quotes", [])`). -/
structure SearchData where
  quotes : List Quote
deriving DecidableEq

/-- `valid_types = ["EQUITY", "ETF", "MUTUALFUND"]` (main.py line 43). -/
def valid_types : List String := ["EQUITY", "ETF", "MUTUALFUND"]

/-- `q.get("quoteType") in valid_types` (absent key gives None, which is
not in the list). -/
def typeOk (q : Quote) : Bool :=
  match q.quoteType with
  | some t => valid_types.contains t
  | none => false

/-- The list comprehension of main.py lines 44-48: keep quotes of a valid
type, read `q["symbol"]` (raising on an absent key) and
`q.get("shortname", "Unknown")`. -/
def buildResults : List Quote → Except Unit (List (String × String))
  | [] => .ok []
  | q :: rest =>
    if typeOk q then
      match q.symbol with
      | none => .error ()
      | some s =>
        match buildResults rest with
        | .error e => .error e
        | .ok rs => .ok ((s, q.shortname.getD "Unknown") :: rs)
    else buildResults rest

/-- The `/search/{query}` response body. -/
structure SearchOut where
  results : List (String × String)
deriving DecidableEq

/-- `GET /search/{query}` (main.py lines 37-51): the fetch/parse outcome
comes in as an `Except`; any failure — network, malformed payload, or a
missing symbol key — is swallowed and answered with `{"results": []}`;
successes are truncated to the first 6 results. -/
def search_ticker (fetch : Except Unit SearchData) : SearchOut :=
  match fetch with
  | .error _ => ⟨[]⟩
  | .ok d =>
    match buildResults d.quotes with
    | .ok rs => ⟨rs.take 6⟩
    | .error _ => ⟨[]⟩

/-- Spec-side definition (following the spec/claim wording, for comparison
with the code): the period-over-period changes taken only over consecutive
pairs whose previous value is nonzero. -/
def specChanges : List ℚ → List ℚ
  | a :: b :: rest =>
    if a = 0 then specChanges (b :: rest) else (b / a - 1) :: specChanges (b :: rest)
  | _ => []

/-- Spec-side definition (claim C2 wording): g is the mean of the valid
changes, replaced by 0.05 when fewer than two data points exist or the
mean is non-finite (in exact arithmetic: no valid changes), then clamped
to [0.02, 0.15]. -/
def growthRate_spec (vals : List ℚ) : ℚ :=
  let cs := specChanges vals
  let m := if vals.length < 2 ∨ cs = [] then 0.05 else cs.sum / cs.length
  max 0.02 (min m 0.15)

/-- Spec-side definition (claim C5 wording): riskFreeRate is the live
proxy yield divided by 100 when the fetch succeeds with a finite value,
else the literal fallback 0.042. -/
def riskFreeRate_spec : Option ℚ → ℚ
  | some y => y / 100
  | none => 0.042

/-- Spec-side definition (claim C7 wording): taxRate = taxProvision /
pretaxIncome whenever the tax provision is present and finite (zero
included) and the pretax income is present, finite and positive; else the
default 0.21. -/
def taxRate_spec : Option Cell → Option Cell → ℚ
  | some (.num a), some (.num b) => if 0 < b then a / b else 0.21
  | _, _ => 0.21

/-- An info dictionary with every key absent. -/
def emptyInfo : InfoDict := ⟨none, none, none, none, none⟩

/-- A benign provider record: a two-point free-cash-flow series, no info
keys (so the literal price/shares fallbacks apply), the secondary
statements absent without raising, no proxy quote. -/
def baseRecord : RawRecord :=
  ⟨some [(1, some 100), (2, some 110)], emptyInfo, ⟨none, none⟩, .ok none, .ok none, none⟩

/-- Claim C1 input: a perfectly good free-cash-flow series, but the info
dictionary carries `currentPrice: null`, so `float(None)` raises. -/
def cexRecord1 : RawRecord :=
  { baseRecord with info := { emptyInfo with currentPrice := some JVal.null } }

/-- Claim C5 input: beta 0 (so the CAPM cost of equity is exactly the
risk-free rate) and a live risk-free proxy yield of 3 percent. -/
def cexRecord5 : RawRecord :=
  ⟨baseRecord.fcfRow, { emptyInfo with beta := some (JVal.num 0) },
    baseRecord.fastInfo, baseRecord.balanceSheet, baseRecord.incomeStmt, some 3⟩

/-- Claim C6 input: readable balance sheet (cash 5, debt 10), and an
income statement whose interest-expense cell is a non-numeric object while
tax provision 20 and pretax income 100 are perfectly readable. -/
def cexRecord6 : RawRecord :=
  ⟨baseRecord.fcfRow, emptyInfo, baseRecord.fastInfo,
    .ok (some ⟨some (Cell.num 5), some (Cell.num 10)⟩),
    .ok (some ⟨some Cell.obj, some (Cell.num 20), some (Cell.num 100)⟩), none⟩

/-- Claim C6 witness input: the income-statement property itself raises
after a readable balance sheet (cash 7, debt 3). -/
def wRecord6 : RawRecord :=
  ⟨baseRecord.fcfRow, emptyInfo, baseRecord.fastInfo,
    .ok (some ⟨some (Cell.num 7), some (Cell.num 3)⟩), .error (), none⟩

/-- Claim C7 input: a zero tax provision next to a positive, finite pretax
income. -/
def cexRecord7 : RawRecord :=
  ⟨baseRecord.fcfRow, emptyInfo, baseRecord.fastInfo, .ok none,
    .ok (some ⟨none, some (Cell.num 0), some (Cell.num 100)⟩), none⟩

/-- Claim C9 witness input: one equity quote. -/
def wQuote : Quote := ⟨some "AAPL", some "Apple Inc", some "EQUITY"⟩

/-- Claim C9 witness payload. -/
def wData : SearchData := ⟨[wQuote]⟩

lemma waccClamped_ge (cp sh : ℚ) (r : RawRecord) : (0.06 : ℚ) ≤ waccClamped cp sh r :=
  le_max_left _ _

lemma waccClamped_le (cp sh : ℚ) (r : RawRecord) : waccClamped cp sh r ≤ 0.15 :=
  max_le (by norm_num) (min_le_right _ _)

lemma waccFinal_eq_clamped (cp sh : ℚ) (r : RawRecord) :
    waccFinal cp sh r = waccClamped cp sh r := by
  have hg : ¬ waccClamped cp sh r ≤ perpetual_growth := by
    have := waccClamped_ge cp sh r
    rw [perpetual_growth]
    intro hc
    norm_num at this hc
    linarith
  rw [waccFinal, if_neg hg]

lemma waccFinal_ge (cp sh : ℚ) (r : RawRecord) : (0.06 : ℚ) ≤ waccFinal cp sh r := by
  rw [waccFinal_eq_clamped]; exact waccClamped_ge cp sh r

lemma waccFinal_le (cp sh : ℚ) (r : RawRecord) : waccFinal cp sh r ≤ 0.15 := by
  rw [waccFinal_eq_clamped]; exact waccClamped_le cp sh r

/-- Claim C3: the WACC used for discounting equals
weightEquity * costOfEquity + weightDebt * costOfDebt * (1 - taxRate)
clamped to [0.06, 0.15], with costOfEquity the CAPM expression; the output
is always inside [0.06, 0.15] and never equals the perpetual growth rate
0.025. -/
theorem c3_wacc_formula_bounds : ∀ (cp sh : ℚ) (r : RawRecord),
    waccFinal cp sh r = max 0.06 (min (waccRaw cp sh r) 0.15)
    ∧ costOfEquity r = risk_free_rate + betaOf r * (expected_market_return - risk_free_rate)
    ∧ 0.06 ≤ waccFinal cp sh r ∧ waccFinal cp sh r ≤ 0.15
    ∧ waccFinal cp sh r ≠ perpetual_growth := by
  intro cp sh r
  refine ⟨waccFinal_eq_clamped cp sh r, rfl, waccFinal_ge cp sh r, waccFinal_le cp sh r, ?_⟩
  have h1 := waccFinal_ge cp sh r
  intro hc
  rw [hc, perpetual_growth] at h1
  norm_num at h1

/-- Claim C8: for every input with positive shares outstanding, the
computed intrinsic value is finite: after the WACC clamp and the
wacc <= perpetualGrowth guard, every denominator of the terminal-value,
present-value and per-share divisions is nonzero (in the exact-rational
model, finiteness of the result is precisely this). -/
theorem c8_intrinsic_denominators : ∀ (cp sh : ℚ) (r : RawRecord), 0 < sh →
    sh ≠ 0 ∧ waccFinal cp sh r - perpetual_growth ≠ 0 ∧
    (1 + waccFinal cp sh r) ^ 1 ≠ 0 ∧ (1 + waccFinal cp sh r) ^ 2 ≠ 0 ∧
    (1 + waccFinal cp sh r) ^ 3 ≠ 0 ∧ (1 + waccFinal cp sh r) ^ 4 ≠ 0 ∧
    (1 + waccFinal cp sh r) ^ 5 ≠ 0 := by
  intro cp sh r hsh
  have hge := waccFinal_ge cp sh r
  have hb : (1 : ℚ) + waccFinal cp sh r ≠ 0 := by
    norm_num at hge ⊢
    linarith
  have hpg : waccFinal cp sh r - perpetual_growth ≠ 0 := by
    rw [perpetual_growth]
    norm_num at hge ⊢
    linarith
  exact ⟨ne_of_gt hsh, hpg, pow_ne_zero 1 hb, pow_ne_zero 2 hb, pow_ne_zero 3 hb,
    pow_ne_zero 4 hb, pow_ne_zero 5 hb⟩

/-- Witness for C8 at a concrete input: shares 2, price 1, the benign base
record. -/
theorem c8_intrinsic_denominators_witness :
    (0 : ℚ) < 2 ∧
    ((2 : ℚ) ≠ 0 ∧ waccFinal 1 2 baseRecord - perpetual_growth ≠ 0 ∧
      (1 + waccFinal 1 2 baseRecord) ^ 1 ≠ 0 ∧ (1 + waccFinal 1 2 baseRecord) ^ 2 ≠ 0 ∧
      (1 + waccFinal 1 2 baseRecord) ^ 3 ≠ 0 ∧ (1 + waccFinal 1 2 baseRecord) ^ 4 ≠ 0 ∧
      (1 + waccFinal 1 2 baseRecord) ^ 5 ≠ 0) :=
  ⟨by norm_num, c8_intrinsic_denominators 1 2 baseRecord (by norm_num)⟩

lemma getLastq_mem {l : List (ℕ × ℚ)} {q : ℕ × ℚ} (h : l.getLast? = some q) : q ∈ l := by
  rcases List.mem_getLast?_eq_getLast (Option.mem_def.mpr h) with ⟨hne, rfl⟩
  exact List.getLast_mem hne

lemma sorted_le_getLast? : ∀ (l : List (ℕ × ℚ)), List.Sorted dateLe l →
    ∀ p ∈ l, ∀ q, l.getLast? = some q → p.1 ≤ q.1
  | [], _, p, hp, _, _ => absurd hp (List.not_mem_nil p)
  | [a], _, p, hp, q, hq => by
    rcases List.mem_singleton.mp hp with rfl
    cases hq
    exact le_refl _
  | a :: b :: t, hs, p, hp, q, hq => by
    rw [List.getLast?_cons_cons] at hq
    rcases List.mem_cons.mp hp with rfl | hp2
    · exact List.rel_of_sorted_cons hs q (getLastq_mem hq)
    · exact sorted_le_getLast? (b :: t) hs.of_cons p hp2 q hq

/-- Claim C4: the projection takes lastFcf from the latest-dated end of
the ascending-sorted series, projects projectedFcf[i] = lastFcf*(1+g)^i
for i = 1..5, and discounts terminal value and yearly flows exactly as
specified. -/
theorem c4_projection_formulas : ∀ (last g w : ℚ),
    future_fcf last g =
      [last * (1 + g) ^ 1, last * (1 + g) ^ 2, last * (1 + g) ^ 3,
        last * (1 + g) ^ 4, last * (1 + g) ^ 5]
    ∧ terminal_value last g w
        = (last * (1 + g) ^ 5 * (1 + perpetual_growth)) / (w - perpetual_growth)
    ∧ pv_fcf last g w
        = last * (1 + g) ^ 1 / (1 + w) ^ 1 + last * (1 + g) ^ 2 / (1 + w) ^ 2
          + last * (1 + g) ^ 3 / (1 + w) ^ 3 + last * (1 + g) ^ 4 / (1 + w) ^ 4
          + last * (1 + g) ^ 5 / (1 + w) ^ 5
    ∧ pv_tv last g w = terminal_value last g w / (1 + w) ^ 5
    ∧ (∀ (l : List (ℕ × ℚ)) (p q : ℕ × ℚ),
        p ∈ sortFcf l → (sortFcf l).getLast? = some q → p.1 ≤ q.1) := by
  intro last g w
  refine ⟨rfl, rfl, ?_, rfl, ?_⟩
  · have h : pv_fcf last g w
        = last * (1 + g) ^ 1 / (1 + w) ^ 1 + (last * (1 + g) ^ 2 / (1 + w) ^ 2
          + (last * (1 + g) ^ 3 / (1 + w) ^ 3 + (last * (1 + g) ^ 4 / (1 + w) ^ 4
          + (last * (1 + g) ^ 5 / (1 + w) ^ 5 + 0)))) := rfl
    rw [h]; ring
  · intro l p q hp hq
    exact sorted_le_getLast? (sortFcf l) (List.sorted_insertionSort dateLe l) p hp q hq

/-- Witness for C4's sorted-last hypothesis at a concrete list: in the
sorted series [(1, 5), (3, 7)] every date is at most the last date. -/
theorem c4_projection_formulas_witness :
    (1, (5 : ℚ)) ∈ sortFcf [(3, 7), (1, 5)]
    ∧ (sortFcf [(3, (7 : ℚ)), (1, 5)]).getLast? = some (3, 7)
    ∧ (1 : ℕ) ≤ 3 :=
  ⟨by decide, by decide,
    (c4_projection_formulas 0 0 0).2.2.2.2 [(3, 7), (1, 5)] (1, 5) (3, 7)
      (by decide) (by decide)⟩

/-- Claim C10: every successful /valuation and /fcf response echoes the
path ticker converted to upper case. -/
theorem c10_ticker_upper : ∀ (t : String) (r : RawRecord),
    (match get_valuation t r with
     | Except.ok res => res.ticker = t.toUpper
     | Except.error _ => True)
    ∧ (match get_free_cash_flow t r with
       | Except.ok res => res.ticker = t.toUpper
       | Except.error _ => True) := by
  intro t r
  constructor
  · rcases h : valuationCore r with e | c
    · simp [get_valuation, h, Except.map]
    · simp [get_valuation, h, Except.map]
  · rcases h : r.fcfRow with _ | row
    · simp [get_free_cash_flow, h]
    · simp [get_free_cash_flow, h]

lemma sortFcf_eq_nil_iff (l : List (ℕ × ℚ)) : sortFcf l = [] ↔ l = [] := by
  constructor
  · intro h
    have hperm := List.perm_insertionSort dateLe l
    rw [sortFcf] at h
    rw [h] at hperm
    exact (hperm.symm).eq_nil
  · intro h
    rw [h]
    rfl

/-- Claim C1, counterexample: a record with an intact two-point
free-cash-flow series but a present-but-null currentPrice makes the
endpoint fail with the 404 "Missing core pricing data" — a NotFound
failure although the series is not absent, empty or all-missing, and
although the claim says a missing/unreadable price degrades to a
default. -/
theorem c1_counterexample :
    get_valuation "aapl" cexRecord1 = Except.error VErr.missingPricing
    ∧ VErr.missingPricing.status = 404
    ∧ filteredFcf [(1, some 100), (2, some 110)] ≠ []
    ∧ cexRecord1.fcfRow = some [(1, some 100), (2, some 110)] := by
  refine ⟨rfl, rfl, by decide, rfl⟩

/-- Claim C1 as amended: the valuation fails — always with a 404-status
error — if and only if the free-cash-flow series is absent, empty or
entirely missing after filtering, OR the core price/shares conversion
raises (a price or shares field present with a null value); all other
missing fields degrade to their defaults. -/
theorem c1_notFound_iff :
    (∀ e : VErr, e.status = 404)
    ∧ ∀ (t : String) (r : RawRecord),
        ((∃ e, get_valuation t r = Except.error e) ↔
          (r.fcfRow = none
            ∨ (∃ row, r.fcfRow = some row ∧ filteredFcf row = [])
            ∨ priceShares r = none)) := by
  refine ⟨fun e => by cases e <;> rfl, ?_⟩
  intro t r
  have hmap : (∃ e, get_valuation t r = Except.error e)
      ↔ (∃ e, valuationCore r = Except.error e) := by
    unfold get_valuation
    cases valuationCore r <;> simp [Except.map]
  rw [hmap]
  rcases hrow : r.fcfRow with _ | row
  · constructor
    · intro _
      exact Or.inl rfl
    · intro _
      exact ⟨VErr.noFcfData, by simp [valuationCore, hrow]⟩
  · by_cases hemp : sortFcf (filteredFcf row) = []
    · constructor
      · intro _
        exact Or.inr (Or.inl ⟨row, rfl, (sortFcf_eq_nil_iff _).mp hemp⟩)
      · intro _
        exact ⟨VErr.emptyFcf, by simp [valuationCore, hrow, hemp]⟩
    · rcases hps : priceShares r with _ | pq
      · constructor
        · intro _
          exact Or.inr (Or.inr rfl)
        · intro _
          exact ⟨VErr.missingPricing, by simp [valuationCore, hrow, hemp, hps]⟩
      · constructor
        · rintro ⟨e, he⟩
          exfalso
          rcases pq with ⟨cp, sh⟩
          simp [valuationCore, hrow, hemp, hps] at he
        · rintro (h1 | ⟨row2, hr2, hf2⟩ | h3)
          · exact absurd h1 (by simp)
          · injection hr2 with hh
            subst hh
            exact absurd ((sortFcf_eq_nil_iff _).mpr hf2) hemp
          · exact absurd h3 (by simp)

/-- Claim C5, counterexample: with a live proxy yield of 3 percent and
beta 0 (so the CAPM cost of equity is exactly the risk-free rate), the
code still feeds the literal 0.042 into CAPM, not 3/100 = 0.03 as the
claim requires. -/
theorem c5_counterexample :
    cexRecord5.rfProxyYield = some 3
    ∧ riskFreeRate_spec cexRecord5.rfProxyYield = 0.03
    ∧ costOfEquity cexRecord5 = risk_free_rate
    ∧ risk_free_rate ≠ riskFreeRate_spec cexRecord5.rfProxyYield := by
  refine ⟨rfl, by norm_num [riskFreeRate_spec, cexRecord5], ?_, ?_⟩
  · show risk_free_rate + betaOf cexRecord5 * (expected_market_return - risk_free_rate)
      = risk_free_rate
    norm_num [betaOf, cexRecord5]
  · norm_num [risk_free_rate, riskFreeRate_spec, cexRecord5]

/-- Claim C5 as amended: the risk-free rate is the hardcoded literal
0.042; `get_valuation` never reads the provider's risk-free proxy — its
output is invariant in that field — so a successful finite proxy yield is
never used. -/
theorem c5_riskFreeRate_constant :
    risk_free_rate = 0.042
    ∧ (∀ r : RawRecord,
        costOfEquity r = 0.042 + betaOf r * (0.10 - 0.042))
    ∧ (∀ (t : String) (r : RawRecord) (y : Option ℚ),
        get_valuation t ⟨r.fcfRow, r.info, r.fastInfo, r.balanceSheet, r.incomeStmt, y⟩
          = get_valuation t r) :=
  ⟨rfl, fun _ => rfl, fun _ _ _ => rfl⟩

lemma readBsCell_num (q : ℚ) : readBsCell (Cell.num q) = Except.ok q := by
  by_cases hq : q = 0
  · subst hq
    rfl
  · have ht : (Cell.num q).truthy = true := by simp [Cell.truthy, hq]
    rw [readBsCell, if_pos ht]
    rfl

/-- Claim C6, counterexample: with a readable balance sheet (cash 5,
debt 10) and an income statement whose interest-expense cell raises in
`math.isnan`, the tax rate stays at the default 0.21 even though the tax
provision 20 and pretax income 100 were independently readable (they
would give 0.2): per-field isolation fails. -/
theorem c6_counterexample :
    (secondaryBlock cexRecord6).taxRate = 0.21
    ∧ readTaxRate (some (Cell.num 20)) (some (Cell.num 100)) 0.21 = Except.ok 0.2
    ∧ (0.21 : ℚ) ≠ 0.2 := by
  refine ⟨rfl, ?_, by norm_num⟩
  have h : readTaxRate (some (Cell.num 20)) (some (Cell.num 100)) 0.21
      = Except.ok (20 / 100) := rfl
  rw [h]
  norm_num

/-- Claim C6 as amended: an exception in the shared secondary try block
preserves the fields assigned before the raising read and leaves every
later field at its prior value. In particular a raising interest-expense
read (with positive debt) leaves the whole state unchanged — suppressing
a readable tax rate — while an income-statement failure preserves the
already-read balance-sheet cash and debt. -/
theorem c6_block_abort :
    (∀ (s : SecState) (r : RawRecord) (inc : IncomeStmt),
        r.incomeStmt = Except.ok (some inc) → inc.interestExpense = some Cell.obj →
        0 < s.totalDebt → afterBs r s = s)
    ∧ (∀ (r : RawRecord) (bs : BalanceSheet) (c d : ℚ),
        r.incomeStmt = Except.error () → r.balanceSheet = Except.ok (some bs) →
        bs.cashAndEquivalents = some (Cell.num c) → bs.totalDebt = some (Cell.num d) →
        secondaryBlock r = ⟨c, d, 0.05, 0.21⟩) := by
  constructor
  · intro s r inc h1 h2 h3
    have hcod : readCostOfDebt inc.interestExpense s.totalDebt s.costOfDebt
        = Except.error () := by
      rw [h2, readCostOfDebt, if_pos h3]
      rfl
    rw [afterBs, h1]
    simp [hcod]
  · intro r bs c d h1 h2 h3 h4
    have hab : ∀ s : SecState, afterBs r s = s := by
      intro s
      rw [afterBs, h1]
    rw [secondaryBlock, h2]
    simp [h3, h4, readBsCell_num, hab, initSec]

/-- Witness for C6 at concrete inputs: the interest-expense failure in
cexRecord6 leaves the state (5, 10, 0.05, 0.21) unchanged, and the
income-statement failure in wRecord6 still yields the balance-sheet cash
7 and debt 3 with the defaults. -/
theorem c6_block_abort_witness :
    afterBs cexRecord6 ⟨5, 10, 0.05, 0.21⟩ = ⟨5, 10, 0.05, 0.21⟩
    ∧ secondaryBlock wRecord6 = ⟨7, 3, 0.05, 0.21⟩ :=
  ⟨c6_block_abort.1 ⟨5, 10, 0.05, 0.21⟩ cexRecord6
      ⟨some Cell.obj, some (Cell.num 20), some (Cell.num 100)⟩ rfl rfl (by norm_num),
    c6_block_abort.2 wRecord6 ⟨some (Cell.num 7), some (Cell.num 3)⟩ 7 3 rfl rfl rfl rfl⟩

/-- Claim C7, counterexample: a zero tax provision next to a finite
positive pretax income keeps the default 0.21, although the claim (and
the spec) require taxRate = 0/100 = 0 in that case: `if tp and ...` is
falsy at 0. -/
theorem c7_counterexample :
    (secondaryBlock cexRecord7).taxRate = 0.21
    ∧ taxRate_spec (some (Cell.num 0)) (some (Cell.num 100)) = 0
    ∧ (0.21 : ℚ) ≠ 0 :=
  ⟨rfl, by norm_num [taxRate_spec], by norm_num⟩

/-- Claim C7 as amended: taxRate = taxProvision / pretaxIncome exactly
when the tax provision is present, finite and nonzero and the pretax
income is present, finite and positive; in every other case (zero or NaN
provision, missing rows, non-positive or NaN income) the prior default is
kept. -/
theorem c7_taxRate_amended : ∀ (a b d : ℚ),
    readTaxRate (some (Cell.num a)) (some (Cell.num b)) d
      = Except.ok (if a ≠ 0 ∧ 0 < b then a / b else d)
    ∧ readTaxRate none (some (Cell.num b)) d = Except.ok d
    ∧ readTaxRate (some (Cell.num a)) none d = Except.ok d
    ∧ readTaxRate (some Cell.nan) (some (Cell.num b)) d = Except.ok d
    ∧ readTaxRate (some (Cell.num a)) (some Cell.nan) d = Except.ok d := by
  intro a b d
  have hnn : Cell.nan.truthy = true := rfl
  refine ⟨?_, rfl, rfl, ?_, ?_⟩
  · by_cases ha : a = 0
    · simp [readTaxRate, Cell.truthy, ha]
    · have hta : (Cell.num a).truthy = true := by simp [Cell.truthy, ha]
      by_cases hb0 : b = 0
      · simp [readTaxRate, Cell.truthy, ha, hb0]
      · have htb : (Cell.num b).truthy = true := by simp [Cell.truthy, hb0]
        by_cases hb : 0 < b
        · rw [if_pos ⟨ha, hb⟩]
          have hgt : (Cell.num b).gtZero = Except.ok true := by simp [Cell.gtZero, hb]
          rw [readTaxRate, if_pos hta, if_pos htb, hgt]
          rfl
        · rw [if_neg (fun hc => hb hc.2)]
          have hgt : (Cell.num b).gtZero = Except.ok false := by simp [Cell.gtZero, hb]
          rw [readTaxRate, if_pos hta, if_pos htb, hgt]
          rfl
  · by_cases hb0 : b = 0
    · simp [readTaxRate, Cell.truthy, hb0]
    · have htb : (Cell.num b).truthy = true := by simp [Cell.truthy, hb0]
      by_cases hb : 0 < b
      · have hgt : (Cell.num b).gtZero = Except.ok true := by simp [Cell.gtZero, hb]
        rw [readTaxRate, if_pos hnn, if_pos htb, hgt]
        rfl
      · have hgt : (Cell.num b).gtZero = Except.ok false := by simp [Cell.gtZero, hb]
        rw [readTaxRate, if_pos hnn, if_pos htb, hgt]
        rfl
  · by_cases ha : a = 0
    · simp [readTaxRate, Cell.truthy, ha]
    · have hta : (Cell.num a).truthy = true := by simp [Cell.truthy, ha]
      rw [readTaxRate, if_pos hta, if_pos hnn]
      rfl

lemma pyMin_fin (a b : ℚ) : pyMin (PFloat.fin a) (PFloat.fin b) = PFloat.fin (min a b) := by
  rw [pyMin]
  by_cases h : b < a
  · simp [pyLt, h, min_eq_right h.le]
  · simp [pyLt, h, min_eq_left (not_lt.mp h)]

lemma pyMax_fin (a b : ℚ) : pyMax (PFloat.fin a) (PFloat.fin b) = PFloat.fin (max a b) := by
  rw [pyMax]
  by_cases h : a < b
  · simp [pyLt, h, max_eq_right h.le]
  · simp [pyLt, h, max_eq_left (not_lt.mp h)]

lemma avg_growth_ne_nan (vals : List ℚ) : avg_growth vals ≠ PFloat.nan := by
  have h : ∀ x : PFloat, (if x = PFloat.nan then PFloat.fin 0.05 else x) ≠ PFloat.nan := by
    intro x
    split
    · simp
    · assumption
  exact h _

lemma gOf_bounds (vals : List ℚ) : 0.02 ≤ gOf vals ∧ gOf vals ≤ 0.15 := by
  have hx := avg_growth_ne_nan vals
  rcases h : avg_growth vals with q | _ | _
  case nan => exact absurd h hx
  case fin =>
    rw [gOf, h, pyMin_fin, pyMax_fin]
    simp only [PFloat.toRatD]
    exact ⟨le_max_left _ _, max_le (by norm_num) (min_le_right _ _)⟩
  case pinf =>
    rw [gOf, h]
    have hmin : pyMin PFloat.pinf (PFloat.fin 0.15) = PFloat.fin 0.15 := rfl
    rw [hmin, pyMax_fin, max_eq_right (show (0.02 : ℚ) ≤ 0.15 by norm_num)]
    simp only [PFloat.toRatD]
    norm_num
  case ninf =>
    rw [gOf, h]
    have hmin : pyMin PFloat.ninf (PFloat.fin 0.15) = PFloat.ninf := rfl
    have hmax : pyMax (PFloat.fin 0.02) PFloat.ninf = PFloat.fin 0.02 := rfl
    rw [hmin, hmax]
    simp only [PFloat.toRatD]
    norm_num

lemma foldl_pfAdd_fin : ∀ (l : List ℚ) (q : ℚ),
    (l.map PFloat.fin).foldl pfAdd (PFloat.fin q) = PFloat.fin (q + l.sum)
  | [], q => by simp
  | a :: t, q => by
    simp only [List.map_cons, List.foldl_cons, pfAdd]
    rw [foldl_pfAdd_fin t (q + a), List.sum_cons]
    exact congrArg PFloat.fin (by ring)

lemma pfSum_map_fin (l : List ℚ) : pfSum (l.map PFloat.fin) = PFloat.fin l.sum := by
  rw [pfSum, foldl_pfAdd_fin l 0, zero_add]

lemma pctChanges_noZero : ∀ (vals : List ℚ), (0 : ℚ) ∉ vals.dropLast →
    pctChanges vals = (specChanges vals).map PFloat.fin
  | [], _ => rfl
  | [_], _ => rfl
  | a :: b :: rest, h => by
    have hd : (a :: b :: rest).dropLast = a :: (b :: rest).dropLast := rfl
    have ha : a ≠ 0 := by
      intro h0
      apply h
      rw [hd, h0]
      exact List.mem_cons_self _ _
    have h2 : (0 : ℚ) ∉ (b :: rest).dropLast := by
      intro hm
      apply h
      rw [hd]
      exact List.mem_cons_of_mem _ hm
    show pctOne a b :: pctChanges (b :: rest) = (specChanges (a :: b :: rest)).map PFloat.fin
    rw [specChanges, if_neg ha, List.map_cons]
    congr 1
    · rw [pctOne, if_neg ha]
    · exact pctChanges_noZero (b :: rest) h2

lemma growth_rates_noZero (vals : List ℚ) (h : (0 : ℚ) ∉ vals.dropLast) :
    growth_rates vals = (specChanges vals).map PFloat.fin := by
  rw [growth_rates, pctChanges_noZero vals h, List.filter_map,
    List.filter_eq_self.mpr (fun a _ => by simp)]

lemma specChanges_nil_of_short : ∀ (vals : List ℚ), vals.length < 2 → specChanges vals = []
  | [], _ => rfl
  | [_], _ => rfl
  | _ :: _ :: t, h => absurd h (by simp [List.length_cons])

lemma gOf_eq_spec (vals : List ℚ) (h : (0 : ℚ) ∉ vals.dropLast) :
    gOf vals = growthRate_spec vals := by
  have hgr := growth_rates_noZero vals h
  by_cases hcs : specChanges vals = []
  · have hgr0 : growth_rates vals = [] := by
      rw [hgr, hcs]
      rfl
    have hav : avg_growth vals = PFloat.fin 0.05 := by
      rw [avg_growth, hgr0]
      rfl
    rw [gOf, hav, pyMin_fin, pyMax_fin]
    simp [growthRate_spec, hcs, PFloat.toRatD]
  · have hlen2 : ¬ vals.length < 2 := fun hl => hcs (specChanges_nil_of_short vals hl)
    have hne : (growth_rates vals).isEmpty = false := by
      rw [hgr]
      cases hcse : specChanges vals with
      | nil => exact absurd hcse hcs
      | cons x xs => rfl
    have hav : avg_growth vals
        = PFloat.fin ((specChanges vals).sum / ((specChanges vals).length : ℚ)) := by
      simp [avg_growth, hgr, pfSum_map_fin, pfDivNat, List.length_map, hcs]
    have hcond : ¬ (vals.length < 2 ∨ specChanges vals = []) := by
      rintro (hl | hc)
      · exact hlen2 hl
      · exact hcs hc
    rw [gOf, hav, pyMin_fin, pyMax_fin]
    simp only [growthRate_spec, PFloat.toRatD]
    rw [if_neg hcond]

/-- Claim C2, counterexample: on the series [0, 100] pandas produces a
+infinity change (100/0), which is neither excluded as an invalid pair
nor caught by the NaN check, so the code clamps an infinite mean to
g = 0.15, while the claim's computation (only pairs with nonzero previous
value, non-finite mean replaced by 0.05) yields 0.05. -/
theorem c2_counterexample :
    gOf [0, 100] = 0.15 ∧ growthRate_spec [0, 100] = 0.05
    ∧ gOf [0, 100] ≠ growthRate_spec [0, 100] := by
  have havg : avg_growth [0, 100] = PFloat.pinf := rfl
  have h1 : gOf [0, 100] = 0.15 := by
    rw [gOf, havg]
    have hmin : pyMin PFloat.pinf (PFloat.fin 0.15) = PFloat.fin 0.15 := rfl
    rw [hmin, pyMax_fin, max_eq_right (show (0.02 : ℚ) ≤ 0.15 by norm_num)]
    rfl
  have h2 : growthRate_spec [0, 100] = 0.05 := by
    have hsc : specChanges [0, 100] = [] := by
      rw [specChanges, if_pos rfl]
      rfl
    simp [growthRate_spec, hsc]
    norm_num
  refine ⟨h1, h2, ?_⟩
  rw [h1, h2]
  norm_num

/-- Claim C2 as amended: g is the Python-clamped mean of
`pct_change().dropna()`, in which a pair with a zero previous value
contributes a signed infinity (only an exact NaN mean or an empty change
list falls back to 0.05; +infinity clamps to 0.15 and -infinity to 0.02),
so g always lies in [0.02, 0.15]; whenever no previous value in the
series is zero the code agrees exactly with the claim's computation. -/
theorem c2_growth_clamped :
    (∀ vals : List ℚ, 0.02 ≤ gOf vals ∧ gOf vals ≤ 0.15)
    ∧ (∀ vals : List ℚ, (0 : ℚ) ∉ vals.dropLast → gOf vals = growthRate_spec vals) :=
  ⟨gOf_bounds, gOf_eq_spec⟩

/-- Witness for C2 on the series [100, 110]: no previous value is zero
and the code growth rate equals the spec growth rate (both 0.10). -/
theorem c2_growth_clamped_witness :
    ((0 : ℚ) ∉ ([100, 110] : List ℚ).dropLast)
    ∧ gOf [100, 110] = growthRate_spec [100, 110] :=
  ⟨by decide, c2_growth_clamped.2 [100, 110] (by decide)⟩

lemma buildResults_mem : ∀ (qs : List Quote) (rs : List (String × String)),
    buildResults qs = Except.ok rs → ∀ res ∈ rs,
    ∃ q ∈ qs, typeOk q = true ∧ q.symbol = some res.1 ∧ res.2 = q.shortname.getD "Unknown"
  | [], rs, h, res, hres => by
    simp only [buildResults] at h
    cases h
    exact absurd hres (List.not_mem_nil res)
  | q :: rest, rs, h, res, hres => by
    by_cases ht : typeOk q = true
    · simp only [buildResults, if_pos ht] at h
      rcases hsym : q.symbol with _ | s
      · rw [hsym] at h
        exact Except.noConfusion h
      · rw [hsym] at h
        rcases hb : buildResults rest with e | rs2
        · rw [hb] at h
          exact Except.noConfusion h
        · rw [hb] at h
          cases h
          rcases List.mem_cons.mp hres with rfl | hres2
          · exact ⟨q, List.mem_cons_self _ _, ht, hsym, rfl⟩
          · rcases buildResults_mem rest rs2 hb res hres2 with ⟨q2, hq2, h1, h2, h3⟩
            exact ⟨q2, List.mem_cons_of_mem _ hq2, h1, h2, h3⟩
    · simp only [buildResults, if_neg ht] at h
      rcases buildResults_mem rest rs h res hres with ⟨q2, hq2, h1, h2, h3⟩
      exact ⟨q2, List.mem_cons_of_mem _ hq2, h1, h2, h3⟩

/-- Claim C9: the search endpoint returns at most 6 results, each drawn
from a provider quote whose quoteType is EQUITY, ETF or MUTUALFUND (with
its symbol and short-name defaulting), and any provider failure yields
the successful empty response, never an error. -/
theorem c9_search_results :
    (∀ f : Except Unit SearchData, (search_ticker f).results.length ≤ 6)
    ∧ search_ticker (Except.error ()) = ⟨[]⟩
    ∧ (∀ (d : SearchData), ∀ res ∈ (search_ticker (Except.ok d)).results,
        ∃ q ∈ d.quotes, typeOk q = true ∧ q.symbol = some res.1
          ∧ res.2 = q.shortname.getD "Unknown") := by
  refine ⟨?_, rfl, ?_⟩
  · intro f
    rcases f with _ | d
    · simp [search_ticker]
    · rcases hb : buildResults d.quotes with e | rs
      · simp [search_ticker, hb]
      · simp only [search_ticker, hb]
        show (rs.take 6).length ≤ 6
        rw [List.length_take]
        exact min_le_left _ _
  · intro d res hres
    rcases hb : buildResults d.quotes with e | rs
    · simp only [search_ticker, hb] at hres
      exact absurd hres (List.not_mem_nil res)
    · simp only [search_ticker, hb] at hres
      exact buildResults_mem d.quotes rs hb res (List.take_subset 6 rs hres)

/-- Witness for C9 at a concrete payload with one equity quote: the
result ("AAPL", "Apple Inc") is present and traceable to that quote. -/
theorem c9_search_results_witness :
    ("AAPL", "Apple Inc") ∈ (search_ticker (Except.ok wData)).results
    ∧ ∃ q ∈ wData.quotes, typeOk q = true ∧ q.symbol = some "AAPL"
        ∧ "Apple Inc" = q.shortname.getD "Unknown" :=
  ⟨by decide, c9_search_results.2.2 wData ("AAPL", "Apple Inc") (by decide)⟩
